import Mathlib

/-!
Verification of euporie widget and application behaviour.

This file gives a shallow embedding, in Lean 4, of the parts of the
euporie code base that the checked properties concern:

* `euporie/widgets/layout.py` — `TabControl` (tab bar rendering and
  mouse handling) and `StackedSplit` (active-child bookkeeping);
* `euporie/widgets/cell_outputs.py` — MIME ranking, renderer selection
  and the `CellOutput` / `CellOutputArea` reconciliation logic;
* `euporie/app/tui.py` — the exit chain, the dialog focus stack and
  `tab_op` dispatch.

Python callbacks are modelled by event traces, object identity by an
explicit allocation counter, exceptions by `Except`, and Python `dict`s
by insertion-ordered association lists.
-/

namespace Euporie

/-! ### Tabs and the tab bar (`euporie/widgets/layout.py`, `TabControl`)

A `Tab` is the named tuple `(title, on_activate, on_deactivate, on_close)`.
The callbacks themselves are replaced by callability flags; a fired
callback is recorded as a `TabEvent` carrying the index of the tab whose
callback fired. -/

structure Tab where
  title : String
  on_activate : Bool
  on_deactivate : Bool
  on_close : Bool

structure TabControl where
  tabs : List Tab
  active : Nat
  spacing : Nat
  closeable : Bool

inductive TabEvent where
  | deactivate (i : Nat)
  | activate (i : Nat)
deriving DecidableEq

/-- The `SCROLL_DOWN` branch of `TabControl.mouse_handler`:

    index = max(self.active + 1, len(self.tabs))
    if index != self.active:
        if callable(deactivate := self.tabs[self.active].on_deactivate):
            deactivate()
        if callable(activate := self.tabs[index].on_activate):
            activate()

An out-of-range subscript (`IndexError` in Python) is `Except.error`;
a successful run returns the fired callbacks in order. -/
def TabControl.scroll_down (c : TabControl) : Except Unit (List TabEvent) :=
  let index := max (c.active + 1) c.tabs.length
  if index ≠ c.active then
    match c.tabs[c.active]? with
    | none => Except.error ()
    | some t =>
      let evs := if t.on_deactivate then [TabEvent.deactivate c.active] else []
      match c.tabs[index]? with
      | none => Except.error ()
      | some t2 =>
        Except.ok (evs ++ (if t2.on_activate then [TabEvent.activate index] else []))
  else
    Except.ok []

/-- The `SCROLL_UP` branch of `TabControl.mouse_handler`, for comparison:
`index = max(self.active - 1, 0)` (Python `max`; `active - 1` is Nat
subtraction here, which agrees with Python for `active ≥ 0`). -/
def TabControl.scroll_up (c : TabControl) : Except Unit (List TabEvent) :=
  let index := max (c.active - 1) 0
  if index ≠ c.active then
    match c.tabs[c.active]? with
    | none => Except.error ()
    | some t =>
      let evs := if t.on_deactivate then [TabEvent.deactivate c.active] else []
      match c.tabs[index]? with
      | none => Except.error ()
      | some t2 =>
        Except.ok (evs ++ (if t2.on_activate then [TabEvent.activate index] else []))
  else
    Except.ok []

/-! ### The exit chain (`euporie/app/tui.py`, `TuiApp.exit`)

Tabs are identified by their position `0 .. n-1` in `self.tabs`
(`T1 = 0`, …, `Tn = n-1`).  `cancelled i` says whether the user cancels
the close request for tab `i`; `Tab.close(cb)` requests the close and
runs `cb` only when not cancelled.  Events record the visible steps. -/

inductive ExitEvent where
  | closeReq (i : Nat)
  | cleanup (i : Nat)
  | exited
deriving DecidableEq

/-- `tab.close(cb=cb)`: the close of tab `i` is requested; the callback
trace `cb` runs only if the user does not cancel. -/
def tabClose (cancelled : Nat → Bool) (i : Nat) (cb : List ExitEvent) : List ExitEvent :=
  ExitEvent.closeReq i :: (if cancelled i then [] else cb)

/-- `final_cb` in `TuiApp.exit`: clean up `self.tabs[0]` and really exit. -/
def final_cb : List ExitEvent :=
  [ExitEvent.cleanup 0, ExitEvent.exited]

/-- `create_cb(close_tab, cleanup_tab, cb)` in `TuiApp.exit`: clean up the
previously closed tab, then request closing of the next tab. -/
def create_cb (cancelled : Nat → Bool) (close_tab cleanup_tab : Nat)
    (cb : List ExitEvent) : List ExitEvent :=
  ExitEvent.cleanup cleanup_tab :: tabClose cancelled close_tab cb

/-- `TuiApp.exit` with `n` open tabs.  The Python loop

    cb = final_cb
    for close_tab, cleanup_tab in zip(self.tabs, self.tabs[1:]):
        cb = create_cb(close_tab, cleanup_tab, cb)
    self.tabs[-1].close(cb)

pairs `(i, i+1)` for `i = 0 .. n-2`, then requests the close of the last
tab; with no tabs it calls `really_close()` immediately. -/
def TuiApp.exit (n : Nat) (cancelled : Nat → Bool) : List ExitEvent :=
  if n = 0 then [ExitEvent.exited]
  else
    let cb := (List.range (n - 1)).foldl
      (fun cb i => create_cb cancelled i (i + 1) cb) final_cb
    tabClose cancelled (n - 1) cb

/-- The spec's description of the exit chain, as a recursion on the top
tab index: the close of tab `i` is requested; if it is not cancelled its
completion callback cleans tab `i` up and continues with tab `i - 1`;
after tab `0` the application really exits. -/
def exitChainSpec (cancelled : Nat → Bool) : Nat → List ExitEvent
  | 0 => ExitEvent.closeReq 0 ::
      (if cancelled 0 then [] else [ExitEvent.cleanup 0, ExitEvent.exited])
  | i + 1 => ExitEvent.closeReq (i + 1) ::
      (if cancelled (i + 1) then []
       else ExitEvent.cleanup (i + 1) :: exitChainSpec cancelled i)

lemma exit_foldl_spec (cancelled : Nat → Bool) (n : Nat) :
    tabClose cancelled n
      ((List.range n).foldl (fun cb i => create_cb cancelled i (i + 1) cb) final_cb)
    = exitChainSpec cancelled n := by
  induction n with
  | zero =>
    simp [tabClose, final_cb, exitChainSpec]
  | succ n ih =>
    rw [List.range_succ, List.foldl_append]
    simp only [List.foldl_cons, List.foldl_nil]
    show ExitEvent.closeReq (n + 1) ::
        (if cancelled (n + 1) then []
         else ExitEvent.cleanup (n + 1) :: tabClose cancelled n
           ((List.range n).foldl (fun cb i => create_cb cancelled i (i + 1) cb) final_cb))
      = exitChainSpec cancelled (n + 1)
    rw [ih]
    rfl

/-- C1 — The claim describes scroll-down as `min(a+1, len-1)`; the code
computes `index = max(self.active + 1, len(self.tabs))`, which is always
out of range, so every scroll-down on a `TabControl` raises `IndexError`
instead of activating the next tab. -/
theorem scroll_down_always_raises (c : TabControl) :
    TabControl.scroll_down c = Except.error () := by
  unfold TabControl.scroll_down
  have hne : max (c.active + 1) c.tabs.length ≠ c.active := by omega
  by_cases h : c.active < c.tabs.length
  · have hnone : c.tabs[max (c.active + 1) c.tabs.length]? = none :=
      List.getElem?_eq_none (by omega)
    rcases hg : c.tabs[c.active]? with _ | t
    · simp [hne, hg]
    · simp [hne, hg, hnone]
  · have hg : c.tabs[c.active]? = none :=
      List.getElem?_eq_none (by omega)
    simp [hne, hg]

/-- C2 — The exit chain requests tab closes from the last tab toward the
first, each completion callback cleaning up the tab just closed and
requesting the next close; a cancelled close stops the chain (no earlier
close request, no process exit); with no tabs the application exits at
once.  In the concrete `[T1, T2, T3]` run with `T2` cancelled: `T3` is
closed (cleaned up), `T2` and `T1` are never closed, and `exited` never
happens. -/
theorem exit_chain_behaviour :
    (∀ cancelled : Nat → Bool, TuiApp.exit 0 cancelled = [ExitEvent.exited])
    ∧ (∀ (cancelled : Nat → Bool) (n : Nat),
        TuiApp.exit (n + 1) cancelled = exitChainSpec cancelled n)
    ∧ (TuiApp.exit 3 (fun i => decide (i = 1)) =
        [ExitEvent.closeReq 2, ExitEvent.cleanup 2, ExitEvent.closeReq 1])
    ∧ (ExitEvent.cleanup 2 ∈ TuiApp.exit 3 (fun i => decide (i = 1))
        ∧ ExitEvent.cleanup 1 ∉ TuiApp.exit 3 (fun i => decide (i = 1))
        ∧ ExitEvent.cleanup 0 ∉ TuiApp.exit 3 (fun i => decide (i = 1))
        ∧ ExitEvent.closeReq 0 ∉ TuiApp.exit 3 (fun i => decide (i = 1))
        ∧ ExitEvent.exited ∉ TuiApp.exit 3 (fun i => decide (i = 1))) := by
  have hspec : ∀ (cancelled : Nat → Bool) (n : Nat),
      TuiApp.exit (n + 1) cancelled = exitChainSpec cancelled n := by
    intro cancelled n
    unfold TuiApp.exit
    simp only [Nat.succ_ne_zero, if_false]
    have := exit_foldl_spec cancelled n
    simpa using this
  refine ⟨fun cancelled => by simp [TuiApp.exit], hspec, ?_, ?_⟩
  · rw [hspec]
    simp [exitChainSpec]
  · rw [hspec]
    simp [exitChainSpec]

/-! ### `StackedSplit` (`euporie/widgets/layout.py`)

Child containers are opaque handles (`Nat`).  The parts of the state the
checked property concerns are `_children`, `_titles` and `_active`;
`style`, `on_change` and the container tree are omitted.  The `Bool`
returned by `set_active` records whether the change branch ran
(recompute, `on_change.fire()`, focus attempt). -/

structure StackedSplit where
  _children : List Nat
  _titles : List String
  _active : Option Int

/-- `StackedSplit.__init__`: stores `list(children)`, `list(titles)` and
`self._active: Optional[int] = active` — the requested index is stored
as given, with no clamping. -/
def StackedSplit.init (children : List Nat) (titles : List String)
    (active : Int) : StackedSplit :=
  { _children := children, _titles := titles, _active := some active }

def StackedSplit.children (s : StackedSplit) : List Nat :=
  s._children

def StackedSplit.active (s : StackedSplit) : Option Int :=
  s._active

/-- The `active` setter:

    if value is not None:
        value = max(0, min(value, len(self.children)))
    if value != self._active:
        self._active = value
        self.refresh(); self.on_change.fire(); ...focus...
-/
def StackedSplit.set_active (s : StackedSplit) (value : Option Int) :
    StackedSplit × Bool :=
  let value := match value with
    | none => none
    | some v => some (max 0 (min v (s.children.length : Int)))
  if value ≠ s._active then
    ({ s with _active := value }, true)
  else
    (s, false)

/-- C3 counterexample — constructing a `StackedSplit` with 2 children and
requested index 5 leaves `active = 5`, not the index 1 that clamping into
`[0, 2)` would give; and a later assignment of 5 stores
`max(0, min(5, len)) = 2`, which is outside `[0, 2)`. -/
theorem stacked_split_active_claim_false :
    (StackedSplit.init [10, 11] ["a", "b"] 5).active = some 5
    ∧ some (5 : Int) ≠ some (max 0 (min 5 ((2 : Int) - 1)))
    ∧ ((StackedSplit.init [10, 11] ["a", "b"] 0).set_active (some 5)).1.active
        = some 2
    ∧ ¬((2 : Int) < 2) := by
  refine ⟨rfl, by decide, ?_, by decide⟩
  rfl

/-- C3 amended — construction stores the requested index unclamped; a
later assignment of a non-`None` integer `v` stores
`max(0, min(v, len(children)))`, which lies in the inclusive range
`[0, len(children)]` (the upper bound `len(children)` itself is
reachable, one past the last valid index). -/
theorem stacked_split_active_amended :
    (∀ (children : List Nat) (titles : List String) (i : Int),
        (StackedSplit.init children titles i).active = some i)
    ∧ (∀ (s : StackedSplit) (v : Int),
        (s.set_active (some v)).1.active
          = some (max 0 (min v (s.children.length : Int)))
        ∧ (0 : Int) ≤ max 0 (min v (s.children.length : Int))
        ∧ max 0 (min v (s.children.length : Int)) ≤ (s.children.length : Int)) := by
  refine ⟨fun children titles i => rfl, fun s v => ⟨?_, le_max_left 0 _, ?_⟩⟩
  · show (if some (max 0 (min v (s.children.length : Int))) ≠ s._active then
        ({ s with _active := some (max 0 (min v (s.children.length : Int))) }, true)
      else (s, false)).1.active = some (max 0 (min v (s.children.length : Int)))
    by_cases h : some (max 0 (min v (s.children.length : Int))) ≠ s._active
    · rw [if_pos h]
      rfl
    · rw [if_neg h]
      exact (not_ne_iff.mp h).symm
  · have : min v (s.children.length : Int) ≤ (s.children.length : Int) :=
      min_le_right _ _
    omega

/-! ### Rendering the tab bar (`TabControl.render`)

A formatted-text fragment is a `(style, text)` pair.  Tab titles are
modelled as plain strings (one fragment); every character involved
(`▁ ▏ ▕ ✖`, spaces, title characters) has terminal cell width 1, so
`fragment_list_width` is the summed string length.  Python's
`string * count` yields `""` for a negative count, which matches the
truncated `Nat` subtraction used in `tab_line`. -/

abbrev Fragment := String × String

def fragment_list_width (l : List Fragment) : Nat :=
  (l.map (fun f => f.2.length)).sum

def char_bottom : String := "▁"
def char_left : String := "▏"
def char_right : String := "▕"
def char_top : String := "▁"
def char_close : String := "✖"

/-- Python `s * n` (string repetition). -/
def repStr (s : String) : Nat → String
  | 0 => ""
  | n + 1 => s ++ repStr s n

def tabStyle (c : TabControl) (j : Nat) : String :=
  if c.active = j then "class:active" else "class:inactive"

/-- The fragments the `for j, tab in enumerate(self.tabs)` loop appends
to `tab_line`: left edge, title, optional close button, right edge, and
`spacing` bottom-border cells after each tab. -/
def TabControl.tabFrags (c : TabControl) : Nat → List Tab → List Fragment
  | _, [] => []
  | j, tab :: rest =>
    ([(tabStyle c j ++ " class:tab,border,left", char_left),
      (tabStyle c j ++ " class:tab,title ", tab.title)]
      ++ (if c.closeable then
            [("", " "), (tabStyle c j ++ " class:tab,close", char_close)]
          else [])
      ++ [(tabStyle c j ++ " class:tab,border,right", char_right)]
      ++ List.replicate c.spacing ("class:border,bottom", char_bottom))
    ++ TabControl.tabFrags c (j + 1) rest

/-- The fragments the loop appends to `top_line`: the top edge over the
title (and close button), then `spacing` blanks. -/
def TabControl.topFrags (c : TabControl) : Nat → List Tab → List Fragment
  | _, [] => []
  | j, tab :: rest =>
    ([(tabStyle c j ++ " class:tab,border,top", repStr char_top (tab.title.length + 2))]
      ++ (if c.closeable then
            [(tabStyle c j ++ " class:tab,border,top", repStr char_top 2)]
          else [])
      ++ List.replicate c.spacing ("", " "))
    ++ TabControl.topFrags c (j + 1) rest

def TabControl.top_line (c : TabControl) : List Fragment :=
  List.replicate c.spacing ("", " ") ++ TabControl.topFrags c 0 c.tabs

/-- `tab_line` just before the final fill: initial spacing then the
per-tab fragments. -/
def TabControl.tab_line_content (c : TabControl) : List Fragment :=
  List.replicate c.spacing ("class:border,bottom", char_bottom)
    ++ TabControl.tabFrags c 0 c.tabs

/-- The second rendered line, with the trailing filler
`self.char_bottom * (width - fragment_list_width(tab_line))`. -/
def TabControl.tab_line (c : TabControl) (width : Nat) : List Fragment :=
  TabControl.tab_line_content c
    ++ [("class:border,bottom",
         repStr char_bottom (width - fragment_list_width (TabControl.tab_line_content c)))]

/-- `TabControl.render(width)` returns `[top_line, tab_line]`. -/
def TabControl.render (c : TabControl) (width : Nat) : List (List Fragment) :=
  [TabControl.top_line c, TabControl.tab_line c width]

/-- The combined content width of the tabs: per tab a left edge, the
title, the optional close button (blank plus glyph), a right edge and
the trailing spacing, plus the initial spacing. -/
def TabControl.content_width (c : TabControl) : Nat :=
  c.spacing + (c.tabs.map (fun t =>
    1 + t.title.length + (if c.closeable then 2 else 0) + 1 + c.spacing)).sum

lemma fragment_list_width_append (a b : List Fragment) :
    fragment_list_width (a ++ b) = fragment_list_width a + fragment_list_width b := by
  simp [fragment_list_width]

lemma fragment_list_width_replicate (n : Nat) (f : Fragment) :
    fragment_list_width (List.replicate n f) = n * f.2.length := by
  simp [fragment_list_width, List.map_replicate, List.sum_replicate, smul_eq_mul]

lemma repStr_length (s : String) (n : Nat) : (repStr s n).length = n * s.length := by
  induction n with
  | zero => simp [repStr]
  | succ n ih =>
    show (s ++ repStr s n).length = (n + 1) * s.length
    rw [String.length_append, ih]
    ring

lemma tabFrags_width (c : TabControl) (ts : List Tab) (j : Nat) :
    fragment_list_width (TabControl.tabFrags c j ts)
      = (ts.map (fun t =>
          1 + t.title.length + (if c.closeable then 2 else 0) + 1 + c.spacing)).sum := by
  induction ts generalizing j with
  | nil => rfl
  | cons tab rest ih =>
    unfold TabControl.tabFrags
    rw [fragment_list_width_append, ih (j + 1), List.map_cons, List.sum_cons]
    congr 1
    have h1 : char_left.length = 1 := rfl
    have h2 : char_right.length = 1 := rfl
    have h3 : char_close.length = 1 := rfl
    have h4 : char_bottom.length = 1 := rfl
    have h5 : (" " : String).length = 1 := rfl
    by_cases h : c.closeable
    · simp [h, fragment_list_width, fragment_list_width_replicate,
        h1, h2, h3, h4, h5]
      omega
    · simp [h, fragment_list_width, fragment_list_width_replicate,
        h1, h2, h4]
      omega

lemma tab_line_content_width (c : TabControl) :
    fragment_list_width (TabControl.tab_line_content c) = TabControl.content_width c := by
  unfold TabControl.tab_line_content TabControl.content_width
  rw [fragment_list_width_append, fragment_list_width_replicate, tabFrags_width]
  have h4 : char_bottom.length = 1 := rfl
  simp [h4]

/-- C4 counterexample — a `TabControl` with one tab titled `"ab"`,
spacing 1, not closeable, rendered at `width = 3`: the tab content alone
is 6 cells wide, the trailing filler cannot be negative, and the second
line comes out 6 cells wide, not 3. -/
theorem render_width_claim_false :
    fragment_list_width
      (TabControl.tab_line
        { tabs := [{ title := "ab", on_activate := true,
                     on_deactivate := false, on_close := false }],
          active := 0, spacing := 1, closeable := false } 3) = 6
    ∧ (6 : Nat) ≠ 3 := by
  constructor
  · rfl
  · decide

/-- C4 amended — the second line returned by `TabControl.render(width)`
is the unchanged tab content followed by a single trailing run of
bottom-border glyphs, and its total glyph width is
`max width content_width`: exactly `width` whenever the tabs fit
(`content_width ≤ width`), but equal to the overflowing content width
otherwise, because the filler length `width - content_width` truncates
at zero and overflow is never corrected. -/
theorem render_second_line_width (c : TabControl) (width : Nat) :
    (TabControl.render c width)[1]? = some (TabControl.tab_line c width)
    ∧ TabControl.tab_line c width
        = TabControl.tab_line_content c
          ++ [("class:border,bottom",
               repStr char_bottom (width - TabControl.content_width c))]
    ∧ fragment_list_width (TabControl.tab_line c width)
        = max width (TabControl.content_width c) := by
  refine ⟨rfl, ?_, ?_⟩
  · unfold TabControl.tab_line
    rw [tab_line_content_width]
  · unfold TabControl.tab_line
    rw [fragment_list_width_append, tab_line_content_width]
    have hrep : fragment_list_width
        [("class:border,bottom",
          repStr char_bottom (width - TabControl.content_width c))]
        = width - TabControl.content_width c := by
      have h4 : char_bottom.length = 1 := rfl
      simp [fragment_list_width, repStr_length, h4]
    rw [hrep]
    omega

/-! ### MIME handling (`euporie/widgets/cell_outputs.py`)

`PurePath(mime).match(pattern)` (PurePosixPath semantics): both strings
are split on `/`, empty and `"."` components are dropped, and a relative
pattern is matched right-anchored, component by component with
`fnmatch`.  Every pattern component appearing in this module is either
the bare wildcard `*` or literal text, so a component matches when the
pattern is `*` or the strings are equal.  Python's substring test
`needle in hay` is `hasSubstr`. -/

def splitSlashAux : List Char → List Char → List (List Char)
  | [], acc => [acc.reverse]
  | c :: rest, acc =>
    if c = '/' then acc.reverse :: splitSlashAux rest []
    else splitSlashAux rest (c :: acc)

/-- `PurePath(s).parts` for a relative POSIX path: split on `/`, drop
empty and `"."` components (so `PurePath("")` has no parts). -/
def pathParts (s : String) : List (List Char) :=
  (splitSlashAux s.toList []).filter (fun comp => comp != [] && comp != ['.'])

def componentMatch (pat comp : List Char) : Bool :=
  if pat == ['*'] then true else pat == comp

/-- `PurePath(path).match(pattern)`: the pattern's components must match
the trailing components of the path. -/
def pathMatch (path pattern : String) : Bool :=
  let pp := pathParts path
  let qq := pathParts pattern
  decide (qq.length ≤ pp.length)
    && (List.zipWith componentMatch qq (pp.drop (pp.length - qq.length))).all (fun b => b)

/-- Python `needle in hay` on strings (character lists). -/
def hasSubstr (needle : List Char) : List Char → Bool
  | [] => needle.isEmpty
  | c :: rest => needle.isPrefixOf (c :: rest) || hasSubstr needle rest

def MIME_ORDER : List String :=
  ["application/vnd.jupyter.widget-view+json",
   "image/*",
   "application/pdf",
   "text/latex",
   "text/markdown",
   "text/x-markdown",
   "text/x-python-traceback",
   "text/stderr",
   "text/html",
   "text/*",
   "*"]

/-- The `for i, ranked_mime in enumerate(MIME_ORDER)` loop body of
`_calculate_mime_rank`: plain text holding an ANSI escape is upranked by
2, HTML without a `<` is downranked by 2, and the adjusted index is
returned at the first matching pattern. -/
def rankLoop (mime data : String) : Nat → List String → Int
  | _, [] => 999
  | i, ranked_mime :: rest =>
    let iAdj : Int := i
    let iAdj := if mime == "text/plain" && hasSubstr "\x1b[".toList data.toList
      then iAdj - 2 else iAdj
    let iAdj := if mime == "text/html" && !hasSubstr "<".toList data.toList
      then iAdj + 2 else iAdj
    if pathMatch mime ranked_mime then iAdj else rankLoop mime data (i + 1) rest

/-- `_calculate_mime_rank(mime_data)`: scores the richness of a
`(mime, data)` pair against `MIME_ORDER`; `999` is the for-else value
when nothing matches. -/
def calculate_mime_rank (mime_data : String × String) : Int :=
  rankLoop mime_data.1 mime_data.2 0 MIME_ORDER

lemma rank_text_plain_esc (p : String)
    (h : hasSubstr "\x1b[".toList p.toList = true) :
    calculate_mime_rank ("text/plain", p) = 7 := by
  simp only [calculate_mime_rank, MIME_ORDER]
  simp only [String.toList] at h
  simp +decide [rankLoop, h]

lemma rank_text_plain_no_esc (p : String)
    (h : hasSubstr "\x1b[".toList p.toList = false) :
    calculate_mime_rank ("text/plain", p) = 9 := by
  simp only [calculate_mime_rank, MIME_ORDER]
  simp only [String.toList] at h
  simp +decide [rankLoop, h]

/-- C5 counterexample — for the fixed `MIME_ORDER` table, the rank of
`("text/plain", payload)` is 9 without an ANSI escape marker and 7 with
one; the distance is 2 positions, not 3. -/
theorem mime_rank_distance_claim_false :
    calculate_mime_rank ("text/plain", "foo") = 9
    ∧ calculate_mime_rank ("text/plain", "\x1b[31m") = 7
    ∧ (9 : Int) ≠ 7 + 3 := by
  refine ⟨?_, ?_, by decide⟩
  · exact rank_text_plain_no_esc "foo" (by decide)
  · exact rank_text_plain_esc "\x1b[31m" (by decide)

/-- C5 amended — `"text/plain"` without an ANSI escape marker in the
payload ranks exactly 2 positions worse (higher) than `"text/plain"`
with one: the escape uprank is `i -= 2` applied at the matching
`"text/*"` entry (index 9), giving ranks 9 and 7. -/
theorem mime_rank_distance (p q : String)
    (hp : hasSubstr "\x1b[".toList p.toList = false)
    (hq : hasSubstr "\x1b[".toList q.toList = true) :
    calculate_mime_rank ("text/plain", p)
      = calculate_mime_rank ("text/plain", q) + 2 := by
  rw [rank_text_plain_no_esc p hp, rank_text_plain_esc q hq]
  decide

/-- Witness for `mime_rank_distance` at concrete payloads. -/
theorem mime_rank_distance_witness :
    calculate_mime_rank ("text/plain", "abc")
      = calculate_mime_rank ("text/plain", "\x1b[0m") + 2 :=
  mime_rank_distance "abc" "\x1b[0m" (by decide) (by decide)

/-! ### `CellOutput` and `CellOutputArea`

The output JSON is a record of the fields `CellOutput.data` reads, each
with its Python `dict.get` default already applied.  A `CellOutput`
carries an `id` standing for Python object identity: constructing an
output draws the next id from an allocation counter, so two distinct
constructions never share an id.  `_containers` is the renderer cache
(mime → element class name). -/

structure OutputJson where
  output_type : String
  name : String
  text : String
  traceback : List String
  data : List (String × String)
deriving DecidableEq

/-- The order Python's stable `sorted(..., key=_calculate_mime_rank)`
sorts by. -/
def rankLE (a b : String × String) : Prop :=
  calculate_mime_rank a ≤ calculate_mime_rank b

instance : DecidableRel rankLE := fun _ _ => Int.decLe _ _

instance : IsTotal (String × String) rankLE :=
  ⟨fun a b => le_total (calculate_mime_rank a) (calculate_mime_rank b)⟩

instance : IsTrans (String × String) rankLE :=
  ⟨fun _ _ _ hab hbc => le_trans hab hbc⟩

/-- The `CellOutput.data` property: streams map to a single
`stream/<name>` entry, errors to a joined traceback, anything else to
the `data` mapping; the result is the mapping sorted (stably) by MIME
rank. -/
def outputData (j : OutputJson) : List (String × String) :=
  let data :=
    if j.output_type == "stream" then [("stream/" ++ j.name, j.text)]
    else if j.output_type == "error" then
      [("text/x-python-traceback", String.intercalate "\n" j.traceback)]
    else j.data
  List.insertionSort rankLE data

structure CellOutput (α : Type) where
  id : Nat
  _json : α
  _selected_mime : Option String
  _containers : List (String × String)
deriving DecidableEq

/-- `CellOutput.__init__(json, cell)`: `_selected_mime = None`, empty
renderer cache; the allocation counter supplies the identity. -/
def CellOutput.init {α : Type} (ctr : Nat) (json : α) : CellOutput α × Nat :=
  ({ id := ctr, _json := json, _selected_mime := none, _containers := [] }, ctr + 1)

/-- The `CellOutput.json` setter: store the new JSON and reset
`self._containers = {}`; `_selected_mime` (and the object identity) are
untouched. -/
def CellOutput.set_json {α : Type} (c : CellOutput α) (j : α) : CellOutput α :=
  { c with _json := j, _containers := [] }

/-- `CellOutput.selected_mime`: if the explicitly selected mime is not a
key of `data`, return the first key (Python `next(x for x in self.data)`;
`none` on empty data models the `StopIteration`). -/
def CellOutput.selected_mime (c : CellOutput OutputJson) : Option String :=
  let data := outputData c._json
  match c._selected_mime with
  | some m =>
    if (data.map Prod.fst).contains m then some m
    else (data.map Prod.fst).head?
  | none => (data.map Prod.fst).head?

def MIME_RENDERERS : List (String × String) :=
  [("application/vnd.jupyter.widget-view+json", "CellOutputWidgetElement"),
   ("*", "CellOutputDataElement")]

/-- The `for mime_pattern, OutputElement in MIME_RENDERERS.items()` loop
of `CellOutput.container`: the first registered pattern the mime matches
decides the element class. -/
def lookupRenderer (mime : String) : Option String :=
  MIME_RENDERERS.findSome? fun pr => if pathMatch mime pr.1 then some pr.2 else none

/-- `CellOutput.container`: a cached element is returned as is; otherwise
the renderer loop constructs one.  When the loop matches nothing,
execution falls through to `return self._containers[self.selected_mime]`
on a mime that was just found absent — a `KeyError`.  (The cache write on
construction is omitted; it does not affect the result.) -/
def CellOutput.container (c : CellOutput OutputJson) : Except String String :=
  match c.selected_mime with
  | none => Except.error "StopIteration"
  | some sel =>
    if (c._containers.map Prod.fst).contains sel then
      Except.ok ((c._containers.lookup sel).getD "")
    else
      match lookupRenderer sel with
      | some elem => Except.ok elem
      | none => Except.error "KeyError"

/-- `CellOutputArea`: the rendered-output list and the backing JSON list. -/
structure CellOutputArea (α : Type) where
  _rendered_outputs : List (CellOutput α)
  _json : List α

/-- The `for i, output_json in enumerate(self.json)` loop of
`CellOutputArea.rendered_outputs`, with `old = self._rendered_outputs`
(its length is read before the loop): positions below `len(old)` reuse
the existing object and assign its `json`; later positions construct new
`CellOutput`s; the new list ends with the JSON list. -/
def rendered_outputs_loop {α : Type} (old : List (CellOutput α)) :
    Nat → Nat → List α → List (CellOutput α) × Nat
  | ctr, _, [] => ([], ctr)
  | ctr, i, output_json :: rest =>
    match old[i]? with
    | some output =>
      let r := rendered_outputs_loop old ctr (i + 1) rest
      (output.set_json output_json :: r.1, r.2)
    | none =>
      let o := CellOutput.init ctr output_json
      let r := rendered_outputs_loop old o.2 (i + 1) rest
      (o.1 :: r.1, r.2)

/-- The `CellOutputArea.json` setter: store the new JSON list and rebuild
`self._rendered_outputs` through the reconciling loop. -/
def CellOutputArea.set_json {α : Type} (a : CellOutputArea α) (ctr : Nat)
    (outputs_json : List α) : CellOutputArea α × Nat :=
  let r := rendered_outputs_loop a._rendered_outputs ctr 0 outputs_json
  ({ _rendered_outputs := r.1, _json := outputs_json }, r.2)

lemma rendered_outputs_loop_length {α : Type} (old : List (CellOutput α))
    (js : List α) (ctr k : Nat) :
    (rendered_outputs_loop old ctr k js).1.length = js.length := by
  induction js generalizing ctr k with
  | nil => rfl
  | cons j rest ih =>
    unfold rendered_outputs_loop
    cases hk : old[k]? with
    | some o => simp [ih]
    | none => simp [ih]

lemma rendered_outputs_loop_overlap {α : Type} (old : List (CellOutput α))
    (js : List α) (ctr k i : Nat) (o : CellOutput α) (j : α)
    (ho : old[k + i]? = some o) (hj : js[i]? = some j) :
    (rendered_outputs_loop old ctr k js).1[i]? = some (o.set_json j) := by
  induction js generalizing ctr k i with
  | nil => simp at hj
  | cons j0 rest ih =>
    cases i with
    | zero =>
      simp only [List.getElem?_cons_zero, Option.some_inj] at hj
      subst hj
      rw [Nat.add_zero] at ho
      unfold rendered_outputs_loop
      rw [ho]
      simp
    | succ i2 =>
      simp only [List.getElem?_cons_succ] at hj
      have ho2 : old[(k + 1) + i2]? = some o := by
        rw [show (k + 1) + i2 = k + (i2 + 1) by omega]
        exact ho
      unfold rendered_outputs_loop
      cases hk : old[k]? with
      | some o0 =>
        simpa using ih ctr (k + 1) i2 ho2 hj
      | none =>
        simpa using ih (ctr + 1) (k + 1) i2 ho2 hj

lemma rendered_outputs_loop_fresh {α : Type} (old : List (CellOutput α))
    (js : List α) (ctr k i : Nat) (j : α)
    (ho : old[k + i]? = none) (hj : js[i]? = some j) :
    ∃ idv, ctr ≤ idv
      ∧ (rendered_outputs_loop old ctr k js).1[i]?
          = some { id := idv, _json := j, _selected_mime := none, _containers := [] } := by
  induction js generalizing ctr k i with
  | nil => simp at hj
  | cons j0 rest ih =>
    cases i with
    | zero =>
      simp only [List.getElem?_cons_zero, Option.some_inj] at hj
      subst hj
      rw [Nat.add_zero] at ho
      refine ⟨ctr, le_refl ctr, ?_⟩
      unfold rendered_outputs_loop
      rw [ho]
      simp [CellOutput.init]
    | succ i2 =>
      simp only [List.getElem?_cons_succ] at hj
      have ho2 : old[(k + 1) + i2]? = none := by
        rw [show (k + 1) + i2 = k + (i2 + 1) by omega]
        exact ho
      unfold rendered_outputs_loop
      cases hk : old[k]? with
      | some o0 =>
        obtain ⟨idv, hle, hget⟩ := ih ctr (k + 1) i2 ho2 hj
        exact ⟨idv, hle, by simpa using hget⟩
      | none =>
        obtain ⟨idv, hle, hget⟩ := ih (ctr + 1) (k + 1) i2 ho2 hj
        exact ⟨idv, by omega, by simpa using hget⟩

/-- C6 — setting a `CellOutputArea`'s JSON reconciles positionally: the
new list has the new JSON's length; at indices below both lengths the
existing `CellOutput` object is kept (same identity) with its JSON
assigned in place (which also resets its renderer cache); at indices
beyond the old length a newly constructed `CellOutput` appears, whose
identity differs from every pre-existing one provided all old ids
predate the allocation counter; indices beyond the new length are
dropped. -/
theorem cell_output_area_set_json_reconciles {α : Type}
    (a : CellOutputArea α) (ctr : Nat) (js : List α) (i : Nat)
    (halloc : ∀ o ∈ a._rendered_outputs, o.id < ctr) :
    ((a.set_json ctr js).1._rendered_outputs.length = js.length)
    ∧ (∀ (o : CellOutput α) (j : α),
        a._rendered_outputs[i]? = some o → js[i]? = some j →
        (a.set_json ctr js).1._rendered_outputs[i]? = some (o.set_json j)
        ∧ (o.set_json j).id = o.id)
    ∧ (∀ j : α, js[i]? = some j → a._rendered_outputs.length ≤ i →
        ∃ o2, (a.set_json ctr js).1._rendered_outputs[i]? = some o2
          ∧ o2._json = j ∧ o2._selected_mime = none ∧ o2._containers = []
          ∧ ∀ o ∈ a._rendered_outputs, o2.id ≠ o.id) := by
  refine ⟨rendered_outputs_loop_length _ _ _ _, ?_, ?_⟩
  · intro o j ho hj
    exact ⟨rendered_outputs_loop_overlap a._rendered_outputs js ctr 0 i o j
      (by simpa using ho) hj, rfl⟩
  · intro j hj hlen
    obtain ⟨idv, hle, hget⟩ := rendered_outputs_loop_fresh a._rendered_outputs js ctr 0 i j
      (by simpa using List.getElem?_eq_none hlen) hj
    refine ⟨_, hget, rfl, rfl, rfl, ?_⟩
    intro o ho
    have := halloc o ho
    simp only []
    omega

/-- Witness for `cell_output_area_set_json_reconciles`: JSON `[A, B]`
updated to `[A2, B, C]` — position 1 keeps the object with id 1, position
2 is a fresh object whose id is neither 0 nor 1. -/
theorem cell_output_area_set_json_reconciles_witness :
    (let old : List (CellOutput String) :=
      [{ id := 0, _json := "A", _selected_mime := none, _containers := [] },
       { id := 1, _json := "B", _selected_mime := none, _containers := [] }]
     let a : CellOutputArea String := { _rendered_outputs := old, _json := ["A", "B"] }
     (a.set_json 2 ["A2", "B", "C"]).1._rendered_outputs.length = 3
     ∧ (a.set_json 2 ["A2", "B", "C"]).1._rendered_outputs[1]?
         = some { id := 1, _json := "B", _selected_mime := none, _containers := [] }
     ∧ ∃ o2, (a.set_json 2 ["A2", "B", "C"]).1._rendered_outputs[2]? = some o2
         ∧ o2._json = "C" ∧ ∀ o ∈ old, o2.id ≠ o.id) := by
  intro old a
  have halloc : ∀ o ∈ old, o.id < 2 := by decide
  refine ⟨(cell_output_area_set_json_reconciles a 2 ["A2", "B", "C"] 0 halloc).1, ?_, ?_⟩
  · have h := (cell_output_area_set_json_reconciles a 2 ["A2", "B", "C"] 1 halloc).2.1
      { id := 1, _json := "B", _selected_mime := none, _containers := [] } "B"
      (by decide) (by decide)
    exact h.1
  · obtain ⟨o2, hget, hjson, _, _, hid⟩ :=
      (cell_output_area_set_json_reconciles a 2 ["A2", "B", "C"] 2 halloc).2.2 "C"
        (by decide) (by decide)
    exact ⟨o2, hget, hjson, hid⟩

lemma drop_length_sub_one {β : Type} :
    ∀ (l : List β), l ≠ [] → ∃ x, l.drop (l.length - 1) = [x]
  | [x], _ => ⟨x, rfl⟩
  | x :: y :: rest, _ => by
    obtain ⟨x0, h⟩ := drop_length_sub_one (y :: rest) (by simp)
    exact ⟨x0, by simpa using h⟩

/-- Any mime string with at least one path component matches the
wildcard pattern `*` (the pattern's single component matches the path's
last component). -/
lemma pathMatch_star (m : String) (h : pathParts m ≠ []) :
    pathMatch m "*" = true := by
  obtain ⟨x, hx⟩ := drop_length_sub_one (pathParts m) h
  have hlen : 1 ≤ (pathParts m).length := by
    cases hp : pathParts m with
    | nil => exact absurd hp h
    | cons a l => simp
  show (decide (1 ≤ (pathParts m).length)
    && (List.zipWith componentMatch [['*']]
        ((pathParts m).drop ((pathParts m).length - 1))).all (fun b => b)) = true
  rw [hx]
  simp [componentMatch, hlen]

/-- C8 counterexample — the empty string is a possible key of the data
mapping (`data: {"": ...}` in the output JSON), it is then the selected
mime, but `PurePath("").match` matches no pattern (an empty path has no
components), so the renderer loop falls through and the container lookup
raises `KeyError`: the failure branch is reachable. -/
theorem container_wildcard_claim_false :
    CellOutput.container
        { id := 0,
          _json := { output_type := "display_data", name := "", text := "",
                     traceback := [], data := [("", "x")] },
          _selected_mime := none, _containers := [] }
      = Except.error "KeyError"
    ∧ "" ∈ (outputData { output_type := "display_data", name := "", text := "",
                         traceback := [], data := [("", "x")] }).map Prod.fst
    ∧ lookupRenderer "" = none := by
  refine ⟨rfl, by decide, rfl⟩

/-- C8 amended — for every mime string whose path has at least one
component (in particular every well-formed `type/subtype` mime), some
registered renderer pattern matches — at worst the universal wildcard —
so requesting the container of a `CellOutput` whose selected mime is such
a string always produces a renderer element; only degenerate keys with
no path component (such as the empty string) reach the failure branch. -/
theorem renderer_lookup_total (m : String) (h : pathParts m ≠ []) :
    (∃ e, lookupRenderer m = some e)
    ∧ (∀ c : CellOutput OutputJson, c.selected_mime = some m →
        ∃ e2, c.container = Except.ok e2) := by
  have hstar := pathMatch_star m h
  have hlk : ∃ e, lookupRenderer m = some e := by
    unfold lookupRenderer MIME_RENDERERS
    by_cases hw : pathMatch m "application/vnd.jupyter.widget-view+json"
    · exact ⟨"CellOutputWidgetElement", by simp [hw]⟩
    · exact ⟨"CellOutputDataElement", by simp [hw, hstar]⟩
  refine ⟨hlk, ?_⟩
  intro c hc
  have hred : c.container
      = (if (c._containers.map Prod.fst).contains m then
           Except.ok ((c._containers.lookup m).getD "")
         else
           match lookupRenderer m with
           | some elem => Except.ok elem
           | none => Except.error "KeyError") := by
    unfold CellOutput.container
    rw [hc]
  rw [hred]
  by_cases hcache : (c._containers.map Prod.fst).contains m
  · exact ⟨(c._containers.lookup m).getD "", if_pos hcache⟩
  · obtain ⟨e, he⟩ := hlk
    refine ⟨e, ?_⟩
    rw [if_neg hcache, he]

/-- Witness for `renderer_lookup_total` at the mime `"text/plain"`. -/
theorem renderer_lookup_total_witness :
    (∃ e, lookupRenderer "text/plain" = some e)
    ∧ (∃ e2, CellOutput.container
        { id := 0,
          _json := { output_type := "display_data", name := "", text := "",
                     traceback := [], data := [("text/plain", "hi")] },
          _selected_mime := none, _containers := [] } = Except.ok e2) := by
  have h := renderer_lookup_total "text/plain" (by decide)
  exact ⟨h.1, h.2 _ (by rfl)⟩

lemma selected_mime_of_none (c : CellOutput OutputJson)
    (h : c._selected_mime = none) :
    c.selected_mime = ((outputData c._json).map Prod.fst).head? := by
  unfold CellOutput.selected_mime
  rw [h]

/-- C9 — assigning new JSON to a `CellOutput` empties the renderer cache,
and the mime selected afterwards is the default for the new JSON: the
first key of the rank-sorted data mapping, which attains the minimal
(best) rank among all entries; it exists whenever the data mapping is
non-empty.  (`_selected_mime` is `None` on every reachable `CellOutput`:
it is initialised to `None` and no code in the repository assigns it.) -/
theorem cell_output_set_json_resets (c : CellOutput OutputJson)
    (j : OutputJson) (hsel : c._selected_mime = none) :
    (c.set_json j)._containers = []
    ∧ (c.set_json j).selected_mime = ((outputData j).map Prod.fst).head?
    ∧ (∀ hd, (outputData j).head? = some hd →
        ∀ kv ∈ outputData j, calculate_mime_rank hd ≤ calculate_mime_rank kv)
    ∧ (outputData j ≠ [] → ∃ m, (c.set_json j).selected_mime = some m) := by
  have hset : (c.set_json j)._selected_mime = none := hsel
  have hselmime : (c.set_json j).selected_mime
      = ((outputData j).map Prod.fst).head? := by
    rw [selected_mime_of_none _ hset]
    rfl
  refine ⟨rfl, hselmime, ?_, ?_⟩
  · intro hd hhd kv hkv
    have hs : List.Sorted rankLE (outputData j) := by
      unfold outputData
      exact List.sorted_insertionSort rankLE _
    cases hout : outputData j with
    | nil =>
      rw [hout] at hhd
      simp at hhd
    | cons a tl =>
      rw [hout] at hhd
      simp only [List.head?_cons, Option.some_inj] at hhd
      subst hhd
      rw [hout] at hs hkv
      rcases List.mem_cons.mp hkv with heq | hmem
      · subst heq
        exact le_refl _
      · exact List.rel_of_sorted_cons hs kv hmem
  · intro hne
    cases hout : outputData j with
    | nil => exact absurd hout hne
    | cons a tl =>
      refine ⟨a.1, ?_⟩
      rw [hselmime, hout]
      simp

/-- Witness for `cell_output_set_json_resets`: a `CellOutput` with a
non-empty renderer cache receives new JSON carrying two mime entries. -/
theorem cell_output_set_json_resets_witness :
    (let c : CellOutput OutputJson :=
       { id := 0,
         _json := { output_type := "display_data", name := "", text := "",
                    traceback := [], data := [] },
         _selected_mime := none,
         _containers := [("text/plain", "CellOutputDataElement")] }
     let j : OutputJson :=
       { output_type := "display_data", name := "", text := "",
         traceback := [], data := [("text/plain", "x"), ("text/html", "<b>hi")] }
     (c.set_json j)._containers = []
     ∧ (c.set_json j).selected_mime = ((outputData j).map Prod.fst).head?
     ∧ ∃ m, (c.set_json j).selected_mime = some m) := by
  intro c j
  have h := cell_output_set_json_resets c j rfl
  exact ⟨h.1, h.2.1, h.2.2.2 (by decide)⟩

/-! ### Dialogs (`euporie/app/tui.py`, `TuiApp.dialog`)

Controls are opaque handles (`Nat`).  `TuiApp.dialog` captures
`self.layout.current_control` in the button handlers' closure, inserts
the dialog float at index 0 and focuses the dialog's first button.  A
button click removes that float and restores the captured focus if the
control is still somewhere in the layout (otherwise the focus is left
where it is), then runs the button's callback.  `base_controls` is the
rest of the layout; `find_all_controls` is the attached-control walk. -/

structure DialogFloat where
  captured : Nat
  button : Nat
deriving DecidableEq

structure AppState where
  focus : Nat
  floats : List DialogFloat
  base_controls : List Nat
deriving DecidableEq

def find_all_controls (s : AppState) : List Nat :=
  s.floats.map (fun d => d.button) ++ s.base_controls

/-- Opening a dialog whose first button widget is `button`. -/
def TuiApp.dialog (s : AppState) (button : Nat) : AppState :=
  { s with
    floats := { captured := s.focus, button := button } :: s.floats,
    focus := button }

/-- Clicking a button of the top dialog: its handler removes the float,
then restores the focus captured at opening time when that control is
still attached. -/
def close_dialog (s : AppState) : AppState :=
  match s.floats with
  | [] => s
  | d :: rest =>
    let s2 := { s with floats := rest }
    if d.captured ∈ find_all_controls s2 then { s2 with focus := d.captured }
    else s2

/-- C7 — each dialog restores, on close, the control focused at the
moment it was opened: opening `D1` then `D2`, closing `D2` restores the
focus held before `D2` opened (namely `D1`'s button), and closing `D1`
then restores the control focused before `D1` opened — not the one
focused before `D2` (when the two differ) — leaving the float stack as
it started. -/
theorem dialog_focus_restored (s : AppState) (b1 b2 : Nat)
    (h : s.focus ∈ s.base_controls) :
    (close_dialog (TuiApp.dialog (TuiApp.dialog s b1) b2)).focus = b1
    ∧ (close_dialog (close_dialog (TuiApp.dialog (TuiApp.dialog s b1) b2))).focus
        = s.focus
    ∧ (close_dialog (close_dialog (TuiApp.dialog (TuiApp.dialog s b1) b2))).floats
        = s.floats
    ∧ (b1 ≠ s.focus →
        (close_dialog (close_dialog (TuiApp.dialog (TuiApp.dialog s b1) b2))).focus
          ≠ b1) := by
  have h1 : close_dialog (TuiApp.dialog (TuiApp.dialog s b1) b2)
      = { focus := b1,
          floats := [{ captured := s.focus, button := b1 }] ++ s.floats,
          base_controls := s.base_controls } := by
    unfold TuiApp.dialog close_dialog
    simp [find_all_controls]
  have h2 : close_dialog (close_dialog (TuiApp.dialog (TuiApp.dialog s b1) b2))
      = { focus := s.focus, floats := s.floats,
          base_controls := s.base_controls } := by
    rw [h1]
    unfold close_dialog
    have hmem : s.focus ∈ find_all_controls
        { focus := b1, floats := s.floats, base_controls := s.base_controls } := by
      unfold find_all_controls
      exact List.mem_append_right _ h
    simp [hmem]
  refine ⟨by rw [h1], by rw [h2], by rw [h2], ?_⟩
  intro hne
  rw [h2]
  exact fun hcontra => hne hcontra.symm

/-- Witness for `dialog_focus_restored`: base controls `[5, 9]`, focus 5,
dialog buttons 7 and 8. -/
theorem dialog_focus_restored_witness :
    (close_dialog (TuiApp.dialog (TuiApp.dialog
        { focus := 5, floats := [], base_controls := [5, 9] } 7) 8)).focus = 7
    ∧ (close_dialog (close_dialog (TuiApp.dialog (TuiApp.dialog
        { focus := 5, floats := [], base_controls := [5, 9] } 7) 8))).focus = 5
    ∧ (close_dialog (close_dialog (TuiApp.dialog (TuiApp.dialog
        { focus := 5, floats := [], base_controls := [5, 9] } 7) 8))).focus ≠ 7 := by
  have h := dialog_focus_restored
    { focus := 5, floats := [], base_controls := [5, 9] } 7 8 (by decide)
  exact ⟨h.1, h.2.1, h.2.2.2 (by decide)⟩

/-! ### `TuiApp.tab_op` (`euporie/app/tui.py`)

A TUI tab is a handle with the set of method names it defines; `hasattr`
is membership in that set.  `tab_op` returns `ok (some id)` when the
bound method of the tab with that id runs, `ok none` for the silent
no-op, and `error "AttributeError"` when `getattr` raises.  Tab
instances are truthy, so `if tab` is a `none` test. -/

structure TuiTab where
  id : Nat
  ops : List String
deriving DecidableEq

def hasattr (t : TuiTab) (op : String) : Bool :=
  t.ops.contains op

/-- `TuiApp.tab_op(operation, tab)`:

    if tab is None:
        tab = self.tab
    if tab and hasattr(tab, operation):
        func = getattr(self.tab, operation)
        if callable(func):
            func(*args, **kwargs)

The `hasattr` guard checks `tab`, but the `getattr` reads `self.tab`
(the currently selected tab): `getattr(None, op)` and a `getattr` on a
tab lacking `op` raise `AttributeError`; bound methods are callable. -/
def TuiApp.tab_op (current : Option TuiTab) (operation : String)
    (tab : Option TuiTab) : Except String (Option Nat) :=
  let tab := match tab with
    | none => current
    | some t => some t
  match tab with
  | none => Except.ok none
  | some t =>
    if hasattr t operation then
      match current with
      | none => Except.error "AttributeError"
      | some cur =>
        if hasattr cur operation then Except.ok (some cur.id)
        else Except.error "AttributeError"
    else Except.ok none

/-- C10 — when an explicit tab `t` possessing the operation is passed,
the method that runs is looked up on the currently selected tab: with a
current tab that has the operation, the current tab's method runs
(whatever `t` is); with no current tab selected, the lookup raises
`AttributeError` instead of silently no-opping (and it also raises when
the current tab lacks the operation `t` has). -/
theorem tab_op_uses_current_tab (cur t : TuiTab) (op : String)
    (ht : hasattr t op = true) :
    (hasattr cur op = true →
      TuiApp.tab_op (some cur) op (some t) = Except.ok (some cur.id))
    ∧ TuiApp.tab_op none op (some t) = Except.error "AttributeError"
    ∧ (hasattr cur op = false →
      TuiApp.tab_op (some cur) op (some t) = Except.error "AttributeError") := by
  refine ⟨?_, ?_, ?_⟩
  · intro hcur
    simp [TuiApp.tab_op, ht, hcur]
  · simp [TuiApp.tab_op, ht]
  · intro hcur
    simp [TuiApp.tab_op, ht, hcur]

/-- Witness for `tab_op_uses_current_tab`: the current tab (id 1) and a
different explicit tab (id 2) both define `"save"`; the method that runs
belongs to tab 1. -/
theorem tab_op_uses_current_tab_witness :
    TuiApp.tab_op (some { id := 1, ops := ["save"] }) "save"
        (some { id := 2, ops := ["save"] })
      = Except.ok (some 1)
    ∧ TuiApp.tab_op none "save" (some { id := 2, ops := ["save"] })
      = Except.error "AttributeError" := by
  have h := tab_op_uses_current_tab { id := 1, ops := ["save"] }
    { id := 2, ops := ["save"] } "save" (by decide)
  exact ⟨h.1 (by decide), h.2.1⟩

end Euporie
